import Mathlib

/-!
Verification of the C20C+ data grabber (`src/c20c_data_grabber.py`).

The whole program is the single function `extract_c20c_data`.  We embed it
shallowly:

* Python strings are `List Char` (`Str` below);
* `str.find`, slicing `s[i:]` and `os.path.dirname` are translated directly
  (`pyFind`, `pySliceFrom`, `dirname`);
* `str.format` with keyword arguments is translated for the fragment the
  program uses — templates built from literal text, `\x7b\x7b`/`\x7d\x7d`
  escapes and simple named placeholders (`lexAux`, `renderToks`, `pyFormat`);
* the two external binaries (`hsi`, `htar`) and the filesystem query used by
  the clobber check are an oracle (`Env`); every subprocess invocation is
  recorded in a trace (`ExtCall`);
* the process working directory is threaded explicitly (`chdirResolve`);
* `extract_c20c_data` itself becomes `runExtract`: the verification loop
  (source lines 87-109) is `verifyPhase`, the extraction loop (lines 112-151)
  is `extractLoop`.
-/

namespace C20C

/-- A Python string, modelled as its list of characters. -/
abbrev Str := List Char

/-! ## Python string primitives used by the source -/

/-- Helper for `pyFind`: the first index `≥ i` (counting from the start of the
original string) at which `sub` occurs in `s`, scanning suffixes of `s`. -/
def findSubAux : Str → Str → Nat → Option Nat
  | s, sub, i =>
    if sub.isPrefixOf s then some i
    else
      match s with
      | [] => none
      | _ :: t => findSubAux t sub (i + 1)

/-- Python `s.find(sub)`: the smallest index at which `sub` occurs as a
substring of `s`, or `-1` if there is no occurrence (source line 118). -/
def pyFind (s sub : Str) : Int :=
  match findSubAux s sub 0 with
  | some i => (i : Int)
  | none => -1

/-- Python slicing `s[i:]` for a possibly negative `i` (source line 119):
a negative index counts from the end, clamped at zero. -/
def pySliceFrom (s : Str) (i : Int) : Str :=
  if i < 0 then s.drop ((s.length : Int) + i).toNat else s.drop i.toNat

/-- Strip trailing `'/'` characters (the `rstrip(sep)` step of
`posixpath.dirname`). -/
def rstripSlash (s : Str) : Str :=
  (s.reverse.dropWhile (fun c => c = '/')).reverse

/-- Python `os.path.dirname` for POSIX paths (source line 120): take
everything up to and including the last `'/'`, then strip the trailing
slashes unless the result consists only of slashes. -/
def dirname (p : Str) : Str :=
  match p.reverse.findIdx? (fun c => c = '/') with
  | none => []
  | some j =>
    let head := p.take (p.length - j)
    if head.all (fun c => c = '/') then head else rstripSlash head

/-! ## Template rendering (`str.format`, source lines 91-98)

The program renders `path_template.format(experiment = …, run = …,
variable = …, institution = …, model = …, estimate = …, version = …)`.
We translate CPython's format-string parser restricted to what such
templates can contain: literal characters, the `\x7b\x7b` and `\x7d\x7d`
escapes, and simple `\x7bname\x7d` placeholders (no positional fields,
conversions or format specs — the source's default template and the
program's failure modes stay inside this fragment).  A placeholder whose
name is not among the supplied keywords fails, as CPython's `KeyError`
does; stray braces fail, as CPython's `ValueError` does. -/

/-- Errors of template rendering. -/
inductive FmtError where
  /-- A lone closing brace in the template. -/
  | singleRBrace : FmtError
  /-- An opening brace that is never closed. -/
  | unmatchedLBrace : FmtError
  /-- A placeholder naming a field that was not supplied. -/
  | missingField (name : Str) : FmtError
deriving DecidableEq

/-- A lexed template token: a literal character or a named placeholder. -/
inductive Tok where
  | lit (c : Char) : Tok
  | fld (name : Str) : Tok
deriving DecidableEq

/-- Prepend a token to the result of lexing the rest of the template. -/
def consTok (tk : Tok) : Except FmtError (List Tok) → Except FmtError (List Tok)
  | .ok ts => .ok (tk :: ts)
  | .error e => .error e

/-- The format-string lexer.  The first argument is `none` while scanning
literal text and `some acc` (reversed accumulator) while inside a
placeholder. -/
def lexAux : Option Str → Str → Except FmtError (List Tok)
  | none, [] => .ok []
  | some _, [] => .error .unmatchedLBrace
  | some acc, c :: rest =>
    if c = '}' then consTok (Tok.fld acc.reverse) (lexAux none rest)
    else lexAux (some (c :: acc)) rest
  | none, [c] =>
    if c = '{' then .error .unmatchedLBrace
    else if c = '}' then .error .singleRBrace
    else .ok [Tok.lit c]
  | none, c1 :: c2 :: rest =>
    if c1 = '{' then
      if c2 = '{' then consTok (Tok.lit '{') (lexAux none rest)
      else lexAux (some []) (c2 :: rest)
    else if c1 = '}' then
      if c2 = '}' then consTok (Tok.lit '}') (lexAux none rest)
      else .error .singleRBrace
    else consTok (Tok.lit c1) (lexAux none (c2 :: rest))

/-- Lex a whole template. -/
def lexTemplate (t : Str) : Except FmtError (List Tok) :=
  lexAux none t

/-- Keyword-argument lookup: the first pair whose key equals `name`. -/
def lookupField : List (Str × Str) → Str → Option Str
  | [], _ => none
  | (k, v) :: rest, name => if k = name then some v else lookupField rest name

/-- Prepend a rendered piece to the result of rendering the rest. -/
def prependStr (s : Str) : Except FmtError Str → Except FmtError Str
  | .ok t => .ok (s ++ t)
  | .error e => .error e

/-- Substitute field values into a lexed token list. -/
def renderToks (fields : List (Str × Str)) : List Tok → Except FmtError Str
  | [] => .ok []
  | Tok.lit c :: rest => prependStr [c] (renderToks fields rest)
  | Tok.fld name :: rest =>
    match lookupField fields name with
    | some val => prependStr val (renderToks fields rest)
    | none => .error (.missingField name)

/-- Python `template.format(**fields)` for the fragment described above. -/
def pyFormat (template : Str) (fields : List (Str × Str)) : Except FmtError Str :=
  match lexTemplate template with
  | .error e => .error e
  | .ok ts => renderToks fields ts

end C20C

namespace C20C

/-! ## The extraction request (the parameters of `extract_c20c_data`,
source lines 7-21) -/

/-- The parameter set of one `extract_c20c_data` invocation.  `variable_list`
is `none` when the caller passes Python's `None` (source line 10); `verbose`
only gates diagnostic printing and is carried for completeness. -/
structure Request where
  experiment : Str
  run : Str
  variable_list : Option (List Str)
  institution : Str
  model : Str
  estimate : Str
  version : Str
  path_template : Str
  verbose : Bool
  output_directory : Option Str
  verify_first : Bool
  clobber : Bool
  htar_threads : Nat

/-- The default variable list (source lines 82-83). -/
def defaultVariableList : List Str :=
  ["hus".toList, "ua".toList, "va".toList]

/-- The variables actually processed: the supplied list, or the default. -/
def varsOf (req : Request) : List Str :=
  match req.variable_list with
  | some l => l
  | none => defaultVariableList

/-- The default path template (source line 15). -/
def defaultTemplate : Str :=
  "/nersc/s/stoned/C20C/{institution}/{model}/{experiment}/{estimate}/{version}/3hr/atmos/{variable}/{run}/{variable}_A3hr_{model}_{experiment}_{estimate}_{version}_{run}.tar".toList

/-- The keyword arguments passed to `path_template.format` (source
lines 91-98), in the source's order. -/
def fieldsOf (req : Request) (vname : Str) : List (Str × Str) :=
  [ ("experiment".toList, req.experiment),
    ("run".toList, req.run),
    ("variable".toList, vname),
    ("institution".toList, req.institution),
    ("model".toList, req.model),
    ("estimate".toList, req.estimate),
    ("version".toList, req.version) ]

/-- Rendering one variable's archive path (source lines 91-98). -/
def renderPath (req : Request) (vname : Str) : Except FmtError Str :=
  pyFormat req.path_template (fieldsOf req vname)

/-- The rendered path of a variable, defaulting to `[]` when rendering
fails (used only to phrase theorems; the run itself propagates the error). -/
def renderedPathD (req : Request) (vname : Str) : Str :=
  match renderPath req vname with
  | .ok p => p
  | .error _ => []

/-! ## The external world -/

/-- Oracle for the two external binaries and the filesystem query.

* `hsiOk p`: whether `hsi ls p` (the existence check, source lines 103-107)
  exits with status zero;
* `htarOk p`: whether `htar -T … -xf p` (source lines 144-148) exits with
  status zero;
* `dirNonEmpty done d`: whether `os.path.isdir(d)` holds and
  `len(os.listdir(d)) != 0` (source lines 128-130); since earlier loop
  iterations create directories and extract files into them, the answer may
  depend on the iterations already completed, passed as `done` (the list of
  `(output directory, archive path)` pairs processed so far). -/
structure Env where
  hsiOk : Str → Bool
  htarOk : Str → Bool
  dirNonEmpty : List (Str × Str) → Str → Bool

/-- One external subprocess invocation, as recorded in the run trace. -/
inductive ExtCall where
  /-- `subprocess.run(["hsi", "ls <path>"], check=True)` (source line 103). -/
  | hsiLs (path : Str) : ExtCall
  /-- `subprocess.run(["htar", "-T", str(threads), "-xf", path], check=True)`
  (source line 144), invoked with working directory `dir`. -/
  | htarXf (threads : Nat) (path : Str) (dir : Str) : ExtCall
deriving DecidableEq

/-- The fatal errors the run can surface (uncaught Python exceptions). -/
inductive RunError where
  /-- `path_template.format(…)` raised (`KeyError`/`ValueError`). -/
  | templateError (e : FmtError) : RunError
  /-- The `RuntimeError` of source line 109: `hsi` failed for `path`. -/
  | verificationError (path : Str) : RunError
  /-- The `CalledProcessError` of source line 144: `htar` failed while
  extracting the variable `vname` from `path`. -/
  | extractionError (vname : Str) (path : Str) : RunError
deriving DecidableEq

/-- The observable outcome of a run: normal completion (falling off the end
of the loop), the early `return` of the clobber check (source line 132), or
a propagated exception. -/
inductive RunResult where
  | completed : RunResult
  | clobberSkipped (dir : Str) : RunResult
  | failed (e : RunError) : RunResult
deriving DecidableEq

/-- The output directory derived from an archive path when no explicit
output directory is supplied (source lines 118-120):
`os.path.dirname(htar_path[htar_path.find(institution):])`. -/
def deriveOutDir (institution htar_path : Str) : Str :=
  dirname (pySliceFrom htar_path (pyFind htar_path institution))

/-- The output directory used for a variable whose rendered path is `p`
(source lines 116-122). -/
def outDirOf (req : Request) (p : Str) : Str :=
  match req.output_directory with
  | some d => d
  | none => deriveOutDir req.institution p

/-- `os.chdir` (source line 141): an absolute path replaces the working
directory, a relative one is resolved against it. -/
def chdirResolve (cwd d : Str) : Str :=
  if d.head? = some '/' then d else cwd ++ '/' :: d

/-! ## The run -/

/-- The first loop of `extract_c20c_data` (source lines 90-109): for each
variable in order, render its path; then, when `verify_first` is set, invoke
`hsi ls` on it, turning a failure into the `RuntimeError` of line 109.
Returns either the error together with the trace so far, or the list of
`(variable, path)` pairs together with the trace. -/
def verifyPhase (env : Env) (req : Request) :
    List Str → Except (RunError × List ExtCall) (List (Str × Str) × List ExtCall)
  | [] => .ok ([], [])
  | v :: rest =>
    match renderPath req v with
    | .error e => .error (.templateError e, [])
    | .ok p =>
      if req.verify_first then
        if env.hsiOk p then
          match verifyPhase env req rest with
          | .error (e, tr) => .error (e, ExtCall.hsiLs p :: tr)
          | .ok (pairs, tr) => .ok ((v, p) :: pairs, ExtCall.hsiLs p :: tr)
        else .error (.verificationError p, [ExtCall.hsiLs p])
      else
        match verifyPhase env req rest with
        | .error (e, tr) => .error (e, tr)
        | .ok (pairs, tr) => .ok ((v, p) :: pairs, tr)

/-- The second loop of `extract_c20c_data` (source lines 112-151): for each
variable, compute the output directory; when `clobber` is unset and the
directory is non-empty, `return` (ending the whole run); otherwise create
the directory, save the working directory, `chdir` into the output
directory, run `htar` (propagating its failure without restoring the
working directory), and `chdir` back.  `done` accumulates the completed
iterations for the filesystem oracle.  Returns (result, trace, final cwd). -/
def extractLoop (env : Env) (req : Request) :
    List (Str × Str) → Str → List (Str × Str) → RunResult × List ExtCall × Str
  | [], cwd, _ => (.completed, [], cwd)
  | (v, p) :: rest, cwd, done =>
    let out_dir := outDirOf req p
    if !req.clobber && env.dirNonEmpty done out_dir then
      (.clobberSkipped out_dir, [], cwd)
    else
      let cwd1 := chdirResolve cwd out_dir
      if env.htarOk p then
        let res := extractLoop env req rest cwd (done ++ [(out_dir, p)])
        (res.1, ExtCall.htarXf req.htar_threads p out_dir :: res.2.1, res.2.2)
      else
        (.failed (.extractionError v p),
         [ExtCall.htarXf req.htar_threads p out_dir], cwd1)

/-- The whole of `extract_c20c_data`: the verification loop followed by the
extraction loop, starting from working directory `cwd0`.  Returns the
result, the trace of subprocess invocations, and the final working
directory. -/
def runExtract (env : Env) (req : Request) (cwd0 : Str) :
    RunResult × List ExtCall × Str :=
  match verifyPhase env req (varsOf req) with
  | .error (e, tr) => (.failed e, tr, cwd0)
  | .ok (pairs, tr) =>
    let res := extractLoop env req pairs cwd0 []
    (res.1, tr ++ res.2.1, res.2.2)

/-- Whether a trace entry is an extraction-command invocation. -/
def isHtarCall : ExtCall → Bool
  | .htarXf _ _ _ => true
  | .hsiLs _ => false

/-- The number of extraction-command invocations in a trace. -/
def htarCount (tr : List ExtCall) : Nat :=
  tr.countP (fun c => isHtarCall c)

/-- Whether the external world reports success for a given invocation. -/
def callOk (env : Env) : ExtCall → Bool
  | .hsiLs p => env.hsiOk p
  | .htarXf _ p _ => env.htarOk p

/-- Every invocation in the trace succeeded. -/
def allOk (env : Env) (tr : List ExtCall) : Prop :=
  ∀ c ∈ tr, callOk env c = true

end C20C

namespace C20C

/-! ## Helper lemmas -/

theorem renderedPathD_eq {req : Request} {v q : Str}
    (h : renderPath req v = .ok q) : renderedPathD req v = q := by
  simp [renderedPathD, h]

/-- `lookupField` succeeds or fails depending only on the keys. -/
theorem lookupField_isSome_congr :
    ∀ (fs fs' : List (Str × Str)), fs.map Prod.fst = fs'.map Prod.fst →
    ∀ name : Str, (lookupField fs name).isSome = (lookupField fs' name).isSome := by
  intro fs
  induction fs with
  | nil =>
    intro fs' h name
    cases fs' with
    | nil => rfl
    | cons b l => simp at h
  | cons a l ih =>
    intro fs' h name
    cases fs' with
    | nil => simp at h
    | cons b l' =>
      obtain ⟨k, val⟩ := a
      obtain ⟨k', val'⟩ := b
      simp only [List.map_cons, List.cons.injEq] at h
      obtain ⟨h1, h2⟩ := h
      subst h1
      by_cases hk : k = name
      · simp [lookupField, hk]
      · simp [lookupField, hk, ih l' h2 name]

/-- Substitution fails with the same error for field lists with the same
keys (the values do not matter for failure). -/
theorem renderToks_error_congr {fs fs' : List (Str × Str)}
    (h : fs.map Prod.fst = fs'.map Prod.fst) :
    ∀ {ts : List Tok} {e : FmtError},
    renderToks fs ts = .error e → renderToks fs' ts = .error e := by
  intro ts
  induction ts with
  | nil => intro e he; simp [renderToks] at he
  | cons t rest ih =>
    intro e he
    cases t with
    | lit c =>
      simp only [renderToks] at he ⊢
      cases hr : renderToks fs rest with
      | ok s => rw [hr] at he; simp [prependStr] at he
      | error e' =>
        rw [hr] at he
        simp [prependStr] at he
        subst he
        rw [ih hr]
        simp [prependStr]
    | fld name =>
      simp only [renderToks] at he ⊢
      cases hl : lookupField fs name with
      | some val =>
        have hs := lookupField_isSome_congr fs fs' h name
        rw [hl] at hs
        simp only [Option.isSome_some] at hs
        cases hl' : lookupField fs' name with
        | none => rw [hl'] at hs; simp at hs
        | some val' =>
          rw [hl] at he
          simp only at he
          cases hr : renderToks fs rest with
          | ok s => rw [hr] at he; simp [prependStr] at he
          | error e' =>
            rw [hr] at he
            simp [prependStr] at he
            subst he
            rw [ih hr]
            simp [prependStr]
      | none =>
        have hs := lookupField_isSome_congr fs fs' h name
        rw [hl] at hs
        simp only [Option.isSome_none] at hs
        cases hl' : lookupField fs' name with
        | some val' => rw [hl'] at hs; simp at hs
        | none =>
          rw [hl] at he
          simp only at he
          exact he

/-- The two field lists of any two variables have the same keys. -/
theorem fieldsOf_keys (req : Request) (v v' : Str) :
    (fieldsOf req v).map Prod.fst = (fieldsOf req v').map Prod.fst := rfl

/-- Rendering failure does not depend on the variable: the template and the
set of supplied keyword names are the same for every variable. -/
theorem renderPath_error_congr {req : Request} {v : Str} {e : FmtError}
    (h : renderPath req v = .error e) (v' : Str) :
    renderPath req v' = .error e := by
  unfold renderPath pyFormat at h ⊢
  cases hl : lexTemplate req.path_template with
  | error e' => rw [hl] at h; exact h
  | ok ts =>
    rw [hl] at h
    exact renderToks_error_congr (fieldsOf_keys req v v') h

/-- If rendering succeeds for one variable it succeeds for every variable. -/
theorem renderPath_ok_total {req : Request} {v q : Str}
    (h : renderPath req v = .ok q) (v' : Str) :
    ∃ q', renderPath req v' = .ok q' := by
  cases hr : renderPath req v' with
  | ok q' => exact ⟨q', rfl⟩
  | error e => rw [renderPath_error_congr hr v] at h; cases h

end C20C

namespace C20C

/-- When every variable renders and (if verification is on) every existence
check passes, the first loop returns all `(variable, path)` pairs in order,
and its trace is exactly the `hsi` calls (or empty without verification). -/
theorem verifyPhase_ok (env : Env) (req : Request) :
    ∀ l : List Str,
    (∀ v ∈ l, ∃ q, renderPath req v = .ok q) →
    (req.verify_first = true → ∀ v ∈ l, env.hsiOk (renderedPathD req v) = true) →
    verifyPhase env req l =
      .ok (l.map (fun v => (v, renderedPathD req v)),
           if req.verify_first then
             l.map (fun v => ExtCall.hsiLs (renderedPathD req v))
           else []) := by
  intro l
  induction l with
  | nil => intro _ _; simp [verifyPhase]
  | cons v rest ih =>
    intro h1 h2
    obtain ⟨q, hq⟩ := h1 v (by simp)
    have hrd : renderedPathD req v = q := renderedPathD_eq hq
    have ihs := ih (fun u hu => h1 u (by simp [hu]))
      (fun hv u hu => h2 hv u (by simp [hu]))
    by_cases hvf : req.verify_first = true
    · have hok : env.hsiOk q = true := by rw [← hrd]; exact h2 hvf v (by simp)
      simp [verifyPhase, hq, hvf, ihs, hok, hrd]
    · have hvf' : req.verify_first = false := by
        cases hb : req.verify_first
        · rfl
        · exact absurd hb hvf
      simp [verifyPhase, hq, hvf', ihs, hrd]

/-- When verification is on, every variable renders, the checks of the
variables before `v` pass and the check of `v` fails, the first loop aborts
with the `RuntimeError` naming `v`'s path, having invoked `hsi` exactly on
the paths of `pre ++ [v]`. -/
theorem verifyPhase_first_fail (env : Env) (req : Request)
    (hv : req.verify_first = true) :
    ∀ (pre : List Str) (v : Str) (post : List Str),
    (∀ u ∈ pre ++ v :: post, ∃ q, renderPath req u = .ok q) →
    (∀ u ∈ pre, env.hsiOk (renderedPathD req u) = true) →
    env.hsiOk (renderedPathD req v) = false →
    verifyPhase env req (pre ++ v :: post) =
      .error (.verificationError (renderedPathD req v),
              (pre ++ [v]).map (fun u => ExtCall.hsiLs (renderedPathD req u))) := by
  intro pre
  induction pre with
  | nil =>
    intro v post h1 _ hf
    obtain ⟨q, hq⟩ := h1 v (by simp)
    have hrd : renderedPathD req v = q := renderedPathD_eq hq
    rw [hrd] at hf ⊢
    simp [verifyPhase, hq, hv, hf, hrd]
  | cons u pre' ih =>
    intro v post h1 h2 hf
    obtain ⟨q, hq⟩ := h1 u (by simp)
    have hrd : renderedPathD req u = q := renderedPathD_eq hq
    have hok : env.hsiOk q = true := by rw [← hrd]; exact h2 u (by simp)
    have ihs := ih v post (fun w hw => h1 w (by simp at hw ⊢; tauto))
      (fun w hw => h2 w (by simp [hw])) hf
    simp [verifyPhase, hq, hv, hok, ihs, hrd]

@[simp] theorem htarCount_nil : htarCount [] = 0 := rfl

@[simp] theorem htarCount_cons_hsi (p : Str) (tr : List ExtCall) :
    htarCount (ExtCall.hsiLs p :: tr) = htarCount tr := by
  simp [htarCount, isHtarCall]

@[simp] theorem htarCount_cons_htar (n : Nat) (p d : Str) (tr : List ExtCall) :
    htarCount (ExtCall.htarXf n p d :: tr) = htarCount tr + 1 := by
  simp [htarCount, isHtarCall]

@[simp] theorem htarCount_append (a b : List ExtCall) :
    htarCount (a ++ b) = htarCount a + htarCount b := by
  simp [htarCount, List.countP_append]

@[simp] theorem htarCount_hsi_map {α : Type} (f : α → Str) (l : List α) :
    htarCount (l.map (fun v => ExtCall.hsiLs (f v))) = 0 := by
  induction l with
  | nil => simp
  | cons v rest ih => simp [ih]

@[simp] theorem htarCount_htar_map {α : Type} (g : α → Nat) (f h : α → Str)
    (l : List α) :
    htarCount (l.map (fun x => ExtCall.htarXf (g x) (f x) (h x))) = l.length := by
  induction l with
  | nil => simp
  | cons x rest ih => simp [ih]

end C20C

namespace C20C

/-- A rendered path whose loop iteration runs cleanly: the clobber check
does not fire (whatever the filesystem reports at that point) and the
extraction command succeeds. -/
def stepClean (env : Env) (req : Request) (p : Str) : Prop :=
  (req.clobber = false → ∀ done, env.dirNonEmpty done (outDirOf req p) = false) ∧
  env.htarOk p = true

/-- Processing a prefix of clean pairs appends exactly their `htar` calls to
the trace and their `(directory, path)` records to the history, and leaves
the working directory argument unchanged. -/
theorem extractLoop_clean_front (env : Env) (req : Request) :
    ∀ pairs₁ : List (Str × Str),
    (∀ pr ∈ pairs₁, stepClean env req pr.2) →
    ∀ (rest : List (Str × Str)) (cwd : Str) (done : List (Str × Str)),
    extractLoop env req (pairs₁ ++ rest) cwd done =
      ((extractLoop env req rest cwd
          (done ++ pairs₁.map (fun pr => (outDirOf req pr.2, pr.2)))).1,
       pairs₁.map (fun pr => ExtCall.htarXf req.htar_threads pr.2 (outDirOf req pr.2))
         ++ (extractLoop env req rest cwd
              (done ++ pairs₁.map (fun pr => (outDirOf req pr.2, pr.2)))).2.1,
       (extractLoop env req rest cwd
          (done ++ pairs₁.map (fun pr => (outDirOf req pr.2, pr.2)))).2.2) := by
  intro pairs₁
  induction pairs₁ with
  | nil => intro _ rest cwd done; simp
  | cons pr ps ih =>
    intro h rest cwd done
    obtain ⟨v, p⟩ := pr
    obtain ⟨hnc, hok⟩ := h (v, p) (by simp)
    have hcond : (!req.clobber && env.dirNonEmpty done (outDirOf req p)) = false := by
      cases hc : req.clobber with
      | true => simp [hc]
      | false => simp [hc, hnc hc done]
    simp only [List.cons_append, extractLoop, hcond, Bool.false_eq_true, if_false, hok, if_true,
      List.append_eq]
    rw [ih (fun u hu => h u (by simp [hu])) rest cwd (done ++ [(outDirOf req p, p)])]
    simp [List.append_assoc]

/-- If the extraction loop completes normally, the working directory it
finishes in is the one it started in. -/
theorem extractLoop_completed_cwd (env : Env) (req : Request) :
    ∀ (pairs : List (Str × Str)) (cwd : Str) (done : List (Str × Str)),
    (extractLoop env req pairs cwd done).1 = .completed →
    (extractLoop env req pairs cwd done).2.2 = cwd := by
  intro pairs
  induction pairs with
  | nil => intro cwd done _; rfl
  | cons pr ps ih =>
    intro cwd done h
    obtain ⟨v, p⟩ := pr
    simp only [extractLoop] at h ⊢
    by_cases hcond : (!req.clobber && env.dirNonEmpty done (outDirOf req p)) = true
    · rw [if_pos hcond] at h
      simp at h
    · rw [if_neg hcond] at h ⊢
      by_cases hok : env.htarOk p = true
      · rw [if_pos hok] at h ⊢
        exact ih cwd (done ++ [(outDirOf req p, p)]) h
      · rw [if_neg hok] at h
        simp at h

/-- Unfolding of the run when the verification phase passes. -/
theorem runExtract_phase1_ok (env : Env) (req : Request) (cwd0 : Str)
    (h1 : ∀ v ∈ varsOf req, ∃ q, renderPath req v = .ok q)
    (h2 : req.verify_first = true →
          ∀ v ∈ varsOf req, env.hsiOk (renderedPathD req v) = true) :
    runExtract env req cwd0 =
      ((extractLoop env req ((varsOf req).map (fun v => (v, renderedPathD req v))) cwd0 []).1,
       (if req.verify_first then
          (varsOf req).map (fun v => ExtCall.hsiLs (renderedPathD req v))
        else []) ++
         (extractLoop env req ((varsOf req).map (fun v => (v, renderedPathD req v))) cwd0 []).2.1,
       (extractLoop env req ((varsOf req).map (fun v => (v, renderedPathD req v))) cwd0 []).2.2) := by
  unfold runExtract
  rw [verifyPhase_ok env req (varsOf req) h1 h2]

end C20C

namespace C20C

/-! ## Claim theorems -/

/-- C1: with verification enabled (`verify_first` true), if every variable
renders and the external existence check fails for the rendered path of a
requested variable `v` (the checks of the variables listed before `v`
passing), then the run aborts with the error naming `v`'s path and the
trace contains zero extraction-command invocations — no variable is
extracted, including those whose own checks succeeded. -/
theorem extract_verify_gate (env : Env) (req : Request) (cwd0 : Str)
    (pre post : List Str) (v : Str)
    (hv : req.verify_first = true)
    (hvars : varsOf req = pre ++ v :: post)
    (hrv : ∃ q, renderPath req v = .ok q)
    (hpre : ∀ u ∈ pre, env.hsiOk (renderedPathD req u) = true)
    (hfail : env.hsiOk (renderedPathD req v) = false) :
    (runExtract env req cwd0).1 =
      .failed (.verificationError (renderedPathD req v)) ∧
    htarCount (runExtract env req cwd0).2.1 = 0 := by
  obtain ⟨q, hq⟩ := hrv
  have hall : ∀ u ∈ pre ++ v :: post, ∃ q', renderPath req u = .ok q' :=
    fun u _ => renderPath_ok_total hq u
  have hvp := verifyPhase_first_fail env req hv pre v post hall hpre hfail
  unfold runExtract
  rw [hvars, hvp]
  exact ⟨rfl, by simp⟩

/-- C6: after a run that completes normally (every variable extracted,
no early return and no error), the final working directory equals the
working directory the run started from. -/
theorem extract_cwd_restored (env : Env) (req : Request) (cwd0 : Str)
    (h : (runExtract env req cwd0).1 = .completed) :
    (runExtract env req cwd0).2.2 = cwd0 := by
  unfold runExtract at h ⊢
  cases hv : verifyPhase env req (varsOf req) with
  | error et => obtain ⟨e, tr⟩ := et; rfl
  | ok pt =>
    obtain ⟨pairs, tr⟩ := pt
    rw [hv] at h
    exact extractLoop_completed_cwd env req pairs cwd0 [] h

/-- C7: if rendering the path template with the supplied fields fails
(for instance because the template references a field that is not
supplied), a run over a non-empty variable list fails with that template
error before any external process has been invoked: its trace is empty. -/
theorem extract_template_error_first (env : Env) (req : Request)
    (cwd0 : Str) (e : FmtError)
    (hne : varsOf req ≠ [])
    (hfail : ∃ v, renderPath req v = .error e) :
    (runExtract env req cwd0).1 = .failed (.templateError e) ∧
    (runExtract env req cwd0).2.1 = [] := by
  obtain ⟨v, hv⟩ := hfail
  cases hl : varsOf req with
  | nil => exact absurd hl hne
  | cons v1 rest =>
    have h1 : renderPath req v1 = .error e := renderPath_error_congr hv v1
    unfold runExtract
    rw [hl]
    simp [verifyPhase, h1]

end C20C

namespace C20C

/-- If the verification phase passes and the variables before `v` are
processed cleanly, the run reduces to the extraction loop positioned at
`v`, with the prefix's `htar` calls already in the trace. -/
theorem runExtract_reach (env : Env) (req : Request) (cwd0 : Str)
    (pre post : List Str) (v : Str)
    (hvars : varsOf req = pre ++ v :: post)
    (hall : ∀ u ∈ varsOf req, ∃ q, renderPath req u = .ok q)
    (hhsi : req.verify_first = true →
            ∀ u ∈ varsOf req, env.hsiOk (renderedPathD req u) = true)
    (hpre : ∀ u ∈ pre, stepClean env req (renderedPathD req u)) :
    runExtract env req cwd0 =
      ((extractLoop env req
          ((v, renderedPathD req v) :: post.map (fun u => (u, renderedPathD req u))) cwd0
          (pre.map (fun u => (outDirOf req (renderedPathD req u), renderedPathD req u)))).1,
       (if req.verify_first then
          (pre ++ v :: post).map (fun u => ExtCall.hsiLs (renderedPathD req u))
        else []) ++
         (pre.map (fun u =>
            ExtCall.htarXf req.htar_threads (renderedPathD req u)
              (outDirOf req (renderedPathD req u))) ++
          (extractLoop env req
            ((v, renderedPathD req v) :: post.map (fun u => (u, renderedPathD req u))) cwd0
            (pre.map (fun u => (outDirOf req (renderedPathD req u), renderedPathD req u)))).2.1),
       (extractLoop env req
          ((v, renderedPathD req v) :: post.map (fun u => (u, renderedPathD req u))) cwd0
          (pre.map (fun u => (outDirOf req (renderedPathD req u), renderedPathD req u)))).2.2) := by
  rw [runExtract_phase1_ok env req cwd0 hall hhsi, hvars]
  rw [List.map_append, List.map_cons]
  rw [extractLoop_clean_front env req (pre.map fun u => (u, renderedPathD req u))
        (by intro pr hpr
            simp only [List.mem_map] at hpr
            obtain ⟨u, hu, rfl⟩ := hpr
            exact hpre u hu)
        ((v, renderedPathD req v) :: post.map (fun u => (u, renderedPathD req u))) cwd0 []]
  simp [List.map_map, Function.comp_def]

end C20C

namespace C20C

/-- C2: with overwriting disallowed (`clobber` false), if the run reaches a
variable `v` (all variables render and verify, the ones before `v` extract
cleanly) whose destination directory exists and is non-empty, the whole run
returns success immediately (the early `return` of source line 132): the
result is the clobber skip and the trace contains extraction-command
invocations only for the `pre` variables — none for `v` or any later
variable. -/
theorem extract_clobber_skip (env : Env) (req : Request) (cwd0 : Str)
    (pre post : List Str) (v : Str)
    (hc : req.clobber = false)
    (hvars : varsOf req = pre ++ v :: post)
    (hrv : ∃ q, renderPath req v = .ok q)
    (hhsi : req.verify_first = true →
            ∀ u ∈ varsOf req, env.hsiOk (renderedPathD req u) = true)
    (hpre : ∀ u ∈ pre, stepClean env req (renderedPathD req u))
    (hfire : ∀ done, env.dirNonEmpty done (outDirOf req (renderedPathD req v)) = true) :
    (runExtract env req cwd0).1 =
      .clobberSkipped (outDirOf req (renderedPathD req v)) ∧
    htarCount (runExtract env req cwd0).2.1 = pre.length := by
  obtain ⟨q, hq⟩ := hrv
  have hall : ∀ u ∈ varsOf req, ∃ q', renderPath req u = .ok q' :=
    fun u _ => renderPath_ok_total hq u
  rw [runExtract_reach env req cwd0 pre post v hvars hall hhsi hpre]
  have hcond : (!req.clobber &&
      env.dirNonEmpty
        (pre.map (fun u => (outDirOf req (renderedPathD req u), renderedPathD req u)))
        (outDirOf req (renderedPathD req v))) = true := by
    simp [hc, hfire]
  simp only [extractLoop, hcond, if_true]
  refine ⟨by trivial, ?_⟩
  cases hvf : req.verify_first <;> simp

/-- C5: if the extraction command fails for a variable `v` that the run
reaches (all variables render and verify, the variables before `v` extract
cleanly, `v`'s own clobber check does not fire), the run fails with the
error identifying `v` and its path, and no extraction-command invocation is
attempted for any later variable: the trace holds exactly the `pre`
extractions plus the failing one. -/
theorem extract_sequential_abort (env : Env) (req : Request) (cwd0 : Str)
    (pre post : List Str) (v : Str)
    (hvars : varsOf req = pre ++ v :: post)
    (hrv : ∃ q, renderPath req v = .ok q)
    (hhsi : req.verify_first = true →
            ∀ u ∈ varsOf req, env.hsiOk (renderedPathD req u) = true)
    (hpre : ∀ u ∈ pre, stepClean env req (renderedPathD req u))
    (hnoskip : req.clobber = false →
               ∀ done, env.dirNonEmpty done (outDirOf req (renderedPathD req v)) = false)
    (hfail : env.htarOk (renderedPathD req v) = false) :
    (runExtract env req cwd0).1 =
      .failed (.extractionError v (renderedPathD req v)) ∧
    htarCount (runExtract env req cwd0).2.1 = pre.length + 1 := by
  obtain ⟨q, hq⟩ := hrv
  have hall : ∀ u ∈ varsOf req, ∃ q', renderPath req u = .ok q' :=
    fun u _ => renderPath_ok_total hq u
  rw [runExtract_reach env req cwd0 pre post v hvars hall hhsi hpre]
  have hcond : (!req.clobber &&
      env.dirNonEmpty
        (pre.map (fun u => (outDirOf req (renderedPathD req u), renderedPathD req u)))
        (outDirOf req (renderedPathD req v))) = false := by
    cases hcl : req.clobber with
    | true => simp
    | false => simp [hnoskip hcl]
  simp only [extractLoop, hcond, Bool.false_eq_true, if_false, hfail]
  refine ⟨by trivial, ?_⟩
  cases hvf : req.verify_first <;> simp

/-- C9: the working directory is restored only on the success path — when
the extraction command fails for a variable `v` that the run reaches, the
error propagates without the `os.chdir(cwd)` of source line 151, so the
run's final working directory is `v`'s destination directory (resolved
against the starting directory). -/
theorem extract_cwd_unrestored_on_failure (env : Env) (req : Request) (cwd0 : Str)
    (pre post : List Str) (v : Str)
    (hvars : varsOf req = pre ++ v :: post)
    (hrv : ∃ q, renderPath req v = .ok q)
    (hhsi : req.verify_first = true →
            ∀ u ∈ varsOf req, env.hsiOk (renderedPathD req u) = true)
    (hpre : ∀ u ∈ pre, stepClean env req (renderedPathD req u))
    (hnoskip : req.clobber = false →
               ∀ done, env.dirNonEmpty done (outDirOf req (renderedPathD req v)) = false)
    (hfail : env.htarOk (renderedPathD req v) = false) :
    (runExtract env req cwd0).1 =
      .failed (.extractionError v (renderedPathD req v)) ∧
    (runExtract env req cwd0).2.2 =
      chdirResolve cwd0 (outDirOf req (renderedPathD req v)) := by
  obtain ⟨q, hq⟩ := hrv
  have hall : ∀ u ∈ varsOf req, ∃ q', renderPath req u = .ok q' :=
    fun u _ => renderPath_ok_total hq u
  rw [runExtract_reach env req cwd0 pre post v hvars hall hhsi hpre]
  have hcond : (!req.clobber &&
      env.dirNonEmpty
        (pre.map (fun u => (outDirOf req (renderedPathD req u), renderedPathD req u)))
        (outDirOf req (renderedPathD req v))) = false := by
    cases hcl : req.clobber with
    | true => simp
    | false => simp [hnoskip hcl]
  simp only [extractLoop, hcond, Bool.false_eq_true, if_false, hfail]
  exact ⟨by trivial, by trivial⟩

end C20C

namespace C20C

/-- Slicing from a non-negative index is `List.drop`. -/
theorem pySliceFrom_ofNat (s : Str) (i : Nat) :
    pySliceFrom s (i : Int) = s.drop i := by
  unfold pySliceFrom
  rw [if_neg (by omega)]
  simp

/-- Index of the slash separating the last segment. -/
theorem findIdx?_slash_of_not_mem (l₂ : Str) :
    ∀ l₁ : Str, '/' ∉ l₁ →
    (l₁ ++ '/' :: l₂).findIdx? (fun c => c = '/') = some l₁.length := by
  intro l₁
  induction l₁ with
  | nil => intro _; simp [List.findIdx?_cons]
  | cons x xs ih =>
    intro h
    have hx : ¬(x = '/') := fun e => h (by simp [e])
    have hxs : '/' ∉ xs := fun m => h (by simp [m])
    simp only [List.cons_append, List.findIdx?_cons, decide_eq_true_eq, if_neg hx,
      List.findIdx?_succ, ih hxs, List.length_cons]
    rfl

/-- Stripping the trailing slash after a non-slash character. -/
theorem rstripSlash_snoc_slash (a : Str) (c : Char) (hc : c ≠ '/') :
    rstripSlash ((a ++ [c]) ++ ['/']) = a ++ [c] := by
  unfold rstripSlash
  rw [List.reverse_append, List.reverse_append]
  simp [List.dropWhile, hc]

/-- Reduction of `dirname` when the last slash of `p` is known. -/
theorem dirname_eq_of_findIdx {p : Str} {j : Nat}
    (h : p.reverse.findIdx? (fun c => c = '/') = some j) :
    dirname p =
      (if ((p.take (p.length - j)).all fun c => decide (c = '/')) = true
       then p.take (p.length - j)
       else rstripSlash (p.take (p.length - j))) := by
  unfold dirname
  rw [h]

/-- `dirname` of a path `a ++ [c] ++ "/" ++ b` whose final segment `b` is
slash-free and whose head ends in a non-slash character: the final segment
and its separator are removed. -/
theorem dirname_append_filename (a b : Str) (c : Char)
    (hb : '/' ∉ b) (hc : c ≠ '/') :
    dirname ((a ++ [c]) ++ '/' :: b) = a ++ [c] := by
  have hrev : ((a ++ [c]) ++ '/' :: b).reverse
      = b.reverse ++ '/' :: (c :: a.reverse) := by
    simp
  have hbm : '/' ∉ b.reverse := by simpa using hb
  have hfi : ((a ++ [c]) ++ '/' :: b).reverse.findIdx? (fun c => c = '/')
      = some b.reverse.length := by
    rw [hrev]
    exact findIdx?_slash_of_not_mem (c :: a.reverse) b.reverse hbm
  rw [dirname_eq_of_findIdx hfi]
  have hlen : ((a ++ [c]) ++ '/' :: b).length - b.reverse.length
      = (a ++ [c]).length + 1 := by
    simp
    omega
  rw [hlen]
  have htake : ((a ++ [c]) ++ '/' :: b).take ((a ++ [c]).length + 1)
      = (a ++ [c]) ++ ['/'] := by
    rw [List.take_append_eq_append_take]
    rw [List.take_of_length_le (by omega)]
    congr 1
    simp
  rw [htake]
  have hall : ((a ++ [c] ++ ['/']).all fun x => decide (x = '/')) = false := by
    simp only [List.all_append, Bool.and_eq_false_iff]
    left; right
    simp [hc]
  rw [if_neg (by simp only [hall]; exact fun h => by cases h)]
  exact rstripSlash_snoc_slash a c hc

/-- C3: when no explicit output directory is supplied, the destination
directory used for a variable whose rendered archive path is `p` is the
substring of `p` starting at the first occurrence (index `i`) of the
institution label, with the final path segment (the slash-free filename
`b`) and its separator removed — i.e. `a ++ [c]` when that substring is
`a ++ [c] ++ "/" ++ b`. -/
theorem extract_dest_derivation (req : Request) (v p : Str) (i : Nat)
    (a b : Str) (c : Char)
    (hout : req.output_directory = none)
    (hr : renderPath req v = .ok p)
    (hfind : pyFind p req.institution = (i : Int))
    (hsplit : p.drop i = (a ++ [c]) ++ '/' :: b)
    (hb : '/' ∉ b) (hc : c ≠ '/') :
    outDirOf req p = a ++ [c] := by
  unfold outDirOf
  rw [hout]
  unfold deriveOutDir
  rw [hfind, pySliceFrom_ofNat, hsplit]
  exact dirname_append_filename a b c hb hc

end C20C

namespace C20C

/-- When `sub` is non-empty and is a prefix of no suffix of `s`, the scan
finds nothing. -/
theorem findSubAux_none (sub : Str) (hsub : sub ≠ []) :
    ∀ s : Str, (∀ i < s.length, sub.isPrefixOf (s.drop i) = false) →
    ∀ k : Nat, findSubAux s sub k = none := by
  intro s
  induction s with
  | nil =>
    intro _ k
    unfold findSubAux
    rw [if_neg ?_]
    · cases sub with
      | nil => exact absurd rfl hsub
      | cons x xs =>
        intro hp
        simp at hp
  | cons x xs ih =>
    intro h k
    unfold findSubAux
    rw [if_neg ?_]
    · exact ih (fun i hi => h (i + 1) (by simpa using hi)) (k + 1)
    · intro hp
      have := h 0 (by simp)
      rw [List.drop_zero] at this
      rw [this] at hp
      cases hp

/-- Python `find` returns `-1` exactly when a non-empty needle occurs
nowhere. -/
theorem pyFind_eq_neg_one (p sub : Str) (hsub : sub ≠ [])
    (h : ∀ i < p.length, sub.isPrefixOf (p.drop i) = false) :
    pyFind p sub = -1 := by
  unfold pyFind
  rw [findSubAux_none sub hsub p h 0]

/-- `dirname` of a single non-slash character is empty. -/
theorem dirname_single (c : Char) (hc : c ≠ '/') : dirname [c] = [] := by
  unfold dirname
  simp [List.findIdx?_cons, hc]

/-- C10: when no explicit output directory is supplied and the institution
label (non-empty) occurs nowhere in a variable's rendered archive path
(which does not end in a slash), the derivation does not fail: the
substring search returns `-1`, Python's negative indexing makes the slice
`p[-1:]` the final single character, and its `dirname` — the derived
destination — is the empty string rather than a path rooted at the
institution label. -/
theorem extract_missing_institution_dest (req : Request) (v p : Str)
    (hout : req.output_directory = none)
    (hr : renderPath req v = .ok p)
    (hinst : req.institution ≠ [])
    (hocc : ∀ i < p.length, req.institution.isPrefixOf (p.drop i) = false)
    (hlast : p.getLast? ≠ some '/') :
    pyFind p req.institution = -1 ∧ outDirOf req p = [] := by
  have hfind := pyFind_eq_neg_one p req.institution hinst hocc
  refine ⟨hfind, ?_⟩
  unfold outDirOf
  rw [hout]
  unfold deriveOutDir
  rw [hfind]
  rcases List.eq_nil_or_concat p with hp | ⟨q, c, hp⟩
  · subst hp
    rfl
  · rw [List.concat_eq_append] at hp
    subst hp
    have hc : c ≠ '/' := by
      rw [List.getLast?_concat] at hlast
      intro h
      exact hlast (by rw [h])
    have hslice : pySliceFrom (q ++ [c]) (-1) = [c] := by
      unfold pySliceFrom
      rw [if_pos (by omega)]
      have : ((q ++ [c]).length : Int) + (-1) = (q.length : Int) := by
        simp
      rw [this]
      simp only [Int.toNat_ofNat]
      exact List.drop_left q [c]
    rw [hslice]
    exact dirname_single c hc

end C20C

namespace C20C

/-- Step equation: rendering fails. -/
theorem verifyPhase_cons_render_err (env : Env) (req : Request) (v : Str)
    (rest : List Str) (e : FmtError) (hq : renderPath req v = .error e) :
    verifyPhase env req (v :: rest) = .error (.templateError e, []) := by
  simp [verifyPhase, hq]

/-- Step equation: rendering succeeds, verification on, check passes. -/
theorem verifyPhase_cons_hsi_ok (env : Env) (req : Request) (v : Str)
    (rest : List Str) (p : Str) (hq : renderPath req v = .ok p)
    (hvf : req.verify_first = true) (hsi : env.hsiOk p = true) :
    verifyPhase env req (v :: rest) =
      (match verifyPhase env req rest with
       | .error (e, tr) => .error (e, ExtCall.hsiLs p :: tr)
       | .ok (pairs, tr) => .ok ((v, p) :: pairs, ExtCall.hsiLs p :: tr)) := by
  simp [verifyPhase, hq, hvf, hsi]

/-- Step equation: rendering succeeds, verification on, check fails. -/
theorem verifyPhase_cons_hsi_fail (env : Env) (req : Request) (v : Str)
    (rest : List Str) (p : Str) (hq : renderPath req v = .ok p)
    (hvf : req.verify_first = true) (hsi : env.hsiOk p = false) :
    verifyPhase env req (v :: rest) =
      .error (.verificationError p, [ExtCall.hsiLs p]) := by
  simp [verifyPhase, hq, hvf, hsi]

/-- Step equation: rendering succeeds, verification off. -/
theorem verifyPhase_cons_no_verify (env : Env) (req : Request) (v : Str)
    (rest : List Str) (p : Str) (hq : renderPath req v = .ok p)
    (hvf : req.verify_first = false) :
    verifyPhase env req (v :: rest) =
      (match verifyPhase env req rest with
       | .error (e, tr) => .error (e, tr)
       | .ok (pairs, tr) => .ok ((v, p) :: pairs, tr)) := by
  simp [verifyPhase, hq, hvf]

/-- In the verification phase, every recorded call succeeded — except,
when the phase fails, possibly the last one. -/
theorem verifyPhase_calls (env : Env) (req : Request) :
    ∀ l : List Str,
    (∀ pairs tr, verifyPhase env req l = .ok (pairs, tr) → allOk env tr) ∧
    (∀ e tr, verifyPhase env req l = .error (e, tr) → allOk env tr.dropLast) := by
  intro l
  induction l with
  | nil =>
    constructor
    · intro pairs tr h
      simp only [verifyPhase, Except.ok.injEq, Prod.mk.injEq] at h
      rw [← h.2]
      intro c hc
      simp at hc
    · intro e tr h
      simp [verifyPhase] at h
  | cons v rest ih =>
    obtain ⟨ihOk, ihErr⟩ := ih
    constructor
    · intro pairs tr h
      cases hq : renderPath req v with
      | error e' => rw [verifyPhase_cons_render_err env req v rest e' hq] at h; simp at h
      | ok p =>
        by_cases hvf : req.verify_first = true
        · by_cases hsi : env.hsiOk p = true
          · rw [verifyPhase_cons_hsi_ok env req v rest p hq hvf hsi] at h
            cases hrec : verifyPhase env req rest with
            | error et => obtain ⟨e2, t2⟩ := et; rw [hrec] at h; simp at h
            | ok pt =>
              obtain ⟨pairs2, tr2⟩ := pt
              rw [hrec] at h
              simp only [Except.ok.injEq, Prod.mk.injEq] at h
              rw [← h.2]
              intro c hc
              rcases List.mem_cons.mp hc with rfl | hc
              · simpa [callOk] using hsi
              · exact ihOk pairs2 tr2 hrec c hc
          · have hsi' : env.hsiOk p = false := by
              cases hb : env.hsiOk p
              · rfl
              · exact absurd hb hsi
            rw [verifyPhase_cons_hsi_fail env req v rest p hq hvf hsi'] at h
            simp at h
        · have hvf' : req.verify_first = false := by
            cases hb : req.verify_first
            · rfl
            · exact absurd hb hvf
          rw [verifyPhase_cons_no_verify env req v rest p hq hvf'] at h
          cases hrec : verifyPhase env req rest with
          | error et => obtain ⟨e2, t2⟩ := et; rw [hrec] at h; simp at h
          | ok pt =>
            obtain ⟨pairs2, tr2⟩ := pt
            rw [hrec] at h
            simp only [Except.ok.injEq, Prod.mk.injEq] at h
            rw [← h.2]
            exact ihOk pairs2 tr2 hrec
    · intro e tr h
      cases hq : renderPath req v with
      | error e' =>
        rw [verifyPhase_cons_render_err env req v rest e' hq] at h
        simp only [Except.error.injEq, Prod.mk.injEq] at h
        rw [← h.2]
        intro c hc
        simp at hc
      | ok p =>
        by_cases hvf : req.verify_first = true
        · by_cases hsi : env.hsiOk p = true
          · rw [verifyPhase_cons_hsi_ok env req v rest p hq hvf hsi] at h
            cases hrec : verifyPhase env req rest with
            | error et =>
              obtain ⟨e2, t2⟩ := et
              rw [hrec] at h
              simp only [Except.error.injEq, Prod.mk.injEq] at h
              rw [← h.2]
              have ht2 := ihErr e2 t2 hrec
              cases t2 with
              | nil => intro c hc; simp at hc
              | cons x xs =>
                rw [List.dropLast_cons₂]
                intro c hc
                rcases List.mem_cons.mp hc with rfl | hc
                · simpa [callOk] using hsi
                · exact ht2 c hc
            | ok pt => obtain ⟨pairs2, tr2⟩ := pt; rw [hrec] at h; simp at h
          · have hsi' : env.hsiOk p = false := by
              cases hb : env.hsiOk p
              · rfl
              · exact absurd hb hsi
            rw [verifyPhase_cons_hsi_fail env req v rest p hq hvf hsi'] at h
            simp only [Except.error.injEq, Prod.mk.injEq] at h
            rw [← h.2]
            intro c hc
            simp at hc
        · have hvf' : req.verify_first = false := by
            cases hb : req.verify_first
            · rfl
            · exact absurd hb hvf
          rw [verifyPhase_cons_no_verify env req v rest p hq hvf'] at h
          cases hrec : verifyPhase env req rest with
          | error et =>
            obtain ⟨e2, t2⟩ := et
            rw [hrec] at h
            simp only [Except.error.injEq, Prod.mk.injEq] at h
            rw [← h.2]
            exact ihErr e2 t2 hrec
          | ok pt => obtain ⟨pairs2, tr2⟩ := pt; rw [hrec] at h; simp at h

/-- In the extraction loop every recorded call succeeded, except possibly
the last one. -/
theorem extractLoop_calls_dropLast (env : Env) (req : Request) :
    ∀ (pairs : List (Str × Str)) (cwd : Str) (done : List (Str × Str)),
    allOk env ((extractLoop env req pairs cwd done).2.1).dropLast := by
  intro pairs
  induction pairs with
  | nil => intro cwd done c hc; simp [extractLoop] at hc
  | cons pr ps ih =>
    intro cwd done
    obtain ⟨v, p⟩ := pr
    simp only [extractLoop]
    by_cases hcond : (!req.clobber && env.dirNonEmpty done (outDirOf req p)) = true
    · rw [if_pos hcond]
      intro c hc
      simp at hc
    · rw [if_neg hcond]
      by_cases hok : env.htarOk p = true
      · rw [if_pos hok]
        have hrec := ih cwd (done ++ [(outDirOf req p, p)])
        cases ht : (extractLoop env req ps cwd (done ++ [(outDirOf req p, p)])).2.1 with
        | nil =>
          intro c hc
          simp at hc
        | cons x xs =>
          show allOk env
            ((ExtCall.htarXf req.htar_threads p (outDirOf req p) :: x :: xs).dropLast)
          rw [List.dropLast_cons₂]
          intro c hc
          rcases List.mem_cons.mp hc with rfl | hc
          · simpa [callOk] using hok
          · rw [ht] at hrec
            exact hrec c hc
      · rw [if_neg hok]
        intro c hc
        simp at hc

/-- Concatenating a fully-successful trace before a trace whose non-final
calls succeeded preserves the latter property. -/
theorem allOk_append_dropLast {env : Env} {t1 t2 : List ExtCall}
    (h1 : allOk env t1) (h2 : allOk env t2.dropLast) :
    allOk env (t1 ++ t2).dropLast := by
  cases hn : t2 with
  | nil =>
    rw [hn] at h2
    subst hn
    rw [List.append_nil]
    intro c hc
    exact h1 c ((List.dropLast_sublist t1).subset hc)
  | cons x xs =>
    subst hn
    rw [List.dropLast_append_of_ne_nil t1 (by simp)]
    intro c hc
    rcases List.mem_append.mp hc with hc | hc
    · exact h1 c hc
    · exact h2 c hc

/-- C8: a run has exactly three observable outcomes — normal completion,
the early clobber-skip success, and failure with a template, verification
or extraction error (`RunError` has exactly these three constructors) —
and no failure is retried or recovered: every subprocess invocation in the
trace except possibly the final one succeeded, so the first failing
invocation (if any) is the last thing the run does. -/
theorem extract_outcomes (env : Env) (req : Request) (cwd0 : Str) :
    ((runExtract env req cwd0).1 = .completed ∨
     (∃ d, (runExtract env req cwd0).1 = .clobberSkipped d) ∨
     (∃ e, (runExtract env req cwd0).1 = .failed e)) ∧
    allOk env ((runExtract env req cwd0).2.1).dropLast := by
  constructor
  · cases h : (runExtract env req cwd0).1 with
    | completed => exact Or.inl rfl
    | clobberSkipped d => exact Or.inr (Or.inl ⟨d, rfl⟩)
    | failed e => exact Or.inr (Or.inr ⟨e, rfl⟩)
  · unfold runExtract
    cases hv : verifyPhase env req (varsOf req) with
    | error et =>
      obtain ⟨e, tr⟩ := et
      exact (verifyPhase_calls env req (varsOf req)).2 e tr hv
    | ok pt =>
      obtain ⟨pairs, tr⟩ := pt
      exact allOk_append_dropLast
        ((verifyPhase_calls env req (varsOf req)).1 pairs tr hv)
        (extractLoop_calls_dropLast env req pairs cwd0 [])

end C20C

namespace C20C

/-! ## Template rendering of the default template (claim C4) -/

/-- No brace character occurs in `s` (no placeholder syntax). -/
def braceFree (s : Str) : Bool :=
  s.all fun c => !decide (c = '{') && !decide (c = '}')

theorem braceFree_append (a b : Str) :
    braceFree (a ++ b) = (braceFree a && braceFree b) := by
  simp [braceFree, List.all_append]

theorem braceFree_cons (c : Char) (s : Str) :
    braceFree (c :: s) =
      ((!decide (c = '{') && !decide (c = '}')) && braceFree s) := by
  simp [braceFree]

/-- Prepend literal tokens to a lexer result. -/
def prependLits (s : Str) : Except FmtError (List Tok) → Except FmtError (List Tok)
  | .ok ts => .ok (s.map Tok.lit ++ ts)
  | .error e => .error e

/-- Lexing a brace-free literal prefix produces its characters as literal
tokens and continues. -/
theorem lexAux_litPrefix :
    ∀ s t : Str, braceFree s = true →
    lexAux none (s ++ t) = prependLits s (lexAux none t) := by
  intro s
  induction s with
  | nil =>
    intro t _
    cases h : lexAux none t <;> simp [prependLits, h]
  | cons c s' ih =>
    intro t hb
    rw [braceFree_cons] at hb
    simp only [Bool.and_eq_true, Bool.not_eq_true', decide_eq_false_iff_not] at hb
    obtain ⟨⟨hc1, hc2⟩, hb'⟩ := hb
    cases hq : s' ++ t with
    | nil =>
      obtain ⟨hs', ht⟩ := List.append_eq_nil.mp hq
      subst hs'
      subst ht
      simp [lexAux, hc1, hc2, prependLits]
    | cons d rest =>
      show lexAux none (c :: (s' ++ t)) = _
      rw [hq]
      simp only [lexAux, if_neg hc1, if_neg hc2]
      rw [← hq, ih t hb']
      cases h : lexAux none t <;> simp [prependLits, consTok, h]

/-- Lexing inside a placeholder: a brace-free name followed by the closing
brace emits the field token and continues. -/
theorem lexAux_fieldName :
    ∀ n acc t : Str, braceFree n = true →
    lexAux (some acc) (n ++ '}' :: t) =
      consTok (Tok.fld (acc.reverse ++ n)) (lexAux none t) := by
  intro n
  induction n with
  | nil => intro acc t _; simp [lexAux]
  | cons c n' ih =>
    intro acc t hb
    rw [braceFree_cons] at hb
    simp only [Bool.and_eq_true, Bool.not_eq_true', decide_eq_false_iff_not] at hb
    obtain ⟨⟨hc1, hc2⟩, hb'⟩ := hb
    show lexAux (some acc) (c :: (n' ++ '}' :: t)) = _
    simp only [lexAux, if_neg hc2]
    rw [ih (c :: acc) t hb']
    have hacc : (c :: acc).reverse ++ n' = acc.reverse ++ c :: n' := by
      simp
    rw [hacc]

/-- Lexing a whole placeholder `\x7bname\x7d` with a non-empty brace-free
name. -/
theorem lexAux_placeholder (n t : Str) (hne : n ≠ []) (hb : braceFree n = true) :
    lexAux none ('{' :: (n ++ '}' :: t)) =
      consTok (Tok.fld n) (lexAux none t) := by
  cases n with
  | nil => exact absurd rfl hne
  | cons c n' =>
    rw [braceFree_cons] at hb
    simp only [Bool.and_eq_true, Bool.not_eq_true', decide_eq_false_iff_not] at hb
    obtain ⟨⟨hc1, hc2⟩, hb'⟩ := hb
    show lexAux none ('{' :: c :: (n' ++ '}' :: t)) = _
    have h1 : lexAux none ('{' :: c :: (n' ++ '}' :: t))
        = lexAux (some []) (c :: (n' ++ '}' :: t)) := by
      simp [lexAux, hc1]
    have h2 : lexAux (some []) (c :: (n' ++ '}' :: t))
        = lexAux (some [c]) (n' ++ '}' :: t) := by
      simp [lexAux, hc2]
    rw [h1, h2, lexAux_fieldName n' [c] t hb']
    rfl

/-- A template decomposed into literal runs and placeholders. -/
inductive Chunk where
  | lits (s : Str) : Chunk
  | ph (n : Str) : Chunk

/-- The template text of a chunk list. -/
def chunksTemplate : List Chunk → Str
  | [] => []
  | Chunk.lits s :: cs => s ++ chunksTemplate cs
  | Chunk.ph n :: cs => '{' :: (n ++ '}' :: chunksTemplate cs)

/-- The token list a chunk list lexes to. -/
def chunksToks : List Chunk → List Tok
  | [] => []
  | Chunk.lits s :: cs => s.map Tok.lit ++ chunksToks cs
  | Chunk.ph n :: cs => Tok.fld n :: chunksToks cs

/-- The rendering of a chunk list: placeholders replaced by their values. -/
def chunksRender (fields : List (Str × Str)) : List Chunk → Str
  | [] => []
  | Chunk.lits s :: cs => s ++ chunksRender fields cs
  | Chunk.ph n :: cs => (lookupField fields n).getD [] ++ chunksRender fields cs

/-- Well-formedness of one chunk with respect to the supplied fields. -/
def chunkGood (fields : List (Str × Str)) : Chunk → Bool
  | Chunk.lits s => braceFree s
  | Chunk.ph n => !n.isEmpty && braceFree n && (lookupField fields n).isSome

/-- Lexing a chunked template yields its token list. -/
theorem lexTemplate_chunks (fields : List (Str × Str)) :
    ∀ cs : List Chunk, (∀ ch ∈ cs, chunkGood fields ch = true) →
    lexTemplate (chunksTemplate cs) = .ok (chunksToks cs) := by
  intro cs
  induction cs with
  | nil => intro _; rfl
  | cons ch cs' ih =>
    intro h
    have hch := h ch (by simp)
    have hrest := ih fun c hc => h c (by simp [hc])
    cases ch with
    | lits s =>
      show lexAux none (s ++ chunksTemplate cs') = _
      rw [lexAux_litPrefix s (chunksTemplate cs') hch]
      unfold lexTemplate at hrest
      rw [hrest]
      rfl
    | ph n =>
      simp only [chunkGood, Bool.and_eq_true] at hch
      obtain ⟨⟨hne', hb⟩, hsome⟩ := hch
      have hne : n ≠ [] := by
        intro e
        subst e
        simp at hne'
      show lexAux none ('{' :: (n ++ '}' :: chunksTemplate cs')) = _
      rw [lexAux_placeholder n (chunksTemplate cs') hne hb]
      unfold lexTemplate at hrest
      rw [hrest]
      rfl

/-- Rendering literal tokens prepends their characters. -/
theorem renderToks_litPrefix (fields : List (Str × Str)) :
    ∀ (s : Str) (ts : List Tok),
    renderToks fields (s.map Tok.lit ++ ts) =
      prependStr s (renderToks fields ts) := by
  intro s
  induction s with
  | nil =>
    intro ts
    cases h : renderToks fields ts <;> simp [prependStr, h]
  | cons c s' ih =>
    intro ts
    show renderToks fields (Tok.lit c :: (s'.map Tok.lit ++ ts)) = _
    simp only [renderToks]
    rw [ih ts]
    cases h : renderToks fields ts <;> simp [prependStr, h]

/-- Substituting into the token list of a chunked template yields the
chunk rendering. -/
theorem renderToks_chunks (fields : List (Str × Str)) :
    ∀ cs : List Chunk, (∀ ch ∈ cs, chunkGood fields ch = true) →
    renderToks fields (chunksToks cs) = .ok (chunksRender fields cs) := by
  intro cs
  induction cs with
  | nil => intro _; rfl
  | cons ch cs' ih =>
    intro h
    have hch := h ch (by simp)
    have hrest := ih fun c hc => h c (by simp [hc])
    cases ch with
    | lits s =>
      show renderToks fields (s.map Tok.lit ++ chunksToks cs') = _
      rw [renderToks_litPrefix fields s (chunksToks cs'), hrest]
      rfl
    | ph n =>
      simp only [chunkGood, Bool.and_eq_true] at hch
      obtain ⟨⟨hne', hb⟩, hsome⟩ := hch
      obtain ⟨val, hval⟩ := Option.isSome_iff_exists.mp hsome
      show renderToks fields (Tok.fld n :: chunksToks cs') = _
      simp only [renderToks, hval, hrest]
      simp [prependStr, chunksRender, hval]

/-- Formatting a chunked template substitutes every placeholder. -/
theorem pyFormat_chunks (fields : List (Str × Str)) (cs : List Chunk)
    (h : ∀ ch ∈ cs, chunkGood fields ch = true) :
    pyFormat (chunksTemplate cs) fields = .ok (chunksRender fields cs) := by
  unfold pyFormat
  rw [lexTemplate_chunks fields cs h]
  exact renderToks_chunks fields cs h

end C20C

namespace C20C

/-- The decomposition of the default template (source line 15) into
literal runs and placeholders. -/
def defaultChunks : List Chunk :=
  [Chunk.lits "/nersc/s/stoned/C20C/".toList, Chunk.ph "institution".toList,
   Chunk.lits "/".toList, Chunk.ph "model".toList,
   Chunk.lits "/".toList, Chunk.ph "experiment".toList,
   Chunk.lits "/".toList, Chunk.ph "estimate".toList,
   Chunk.lits "/".toList, Chunk.ph "version".toList,
   Chunk.lits "/3hr/atmos/".toList, Chunk.ph "variable".toList,
   Chunk.lits "/".toList, Chunk.ph "run".toList,
   Chunk.lits "/".toList, Chunk.ph "variable".toList,
   Chunk.lits "_A3hr_".toList, Chunk.ph "model".toList,
   Chunk.lits "_".toList, Chunk.ph "experiment".toList,
   Chunk.lits "_".toList, Chunk.ph "estimate".toList,
   Chunk.lits "_".toList, Chunk.ph "version".toList,
   Chunk.lits "_".toList, Chunk.ph "run".toList,
   Chunk.lits ".tar".toList]

set_option maxRecDepth 8000

theorem defaultTemplate_chunks :
    defaultTemplate = chunksTemplate defaultChunks := by
  rfl

/-- C4: for any variable name and any field values, rendering the default
template succeeds and produces exactly the template's literal text with the
seven field values substituted at their placeholder positions; when the
field values themselves contain no braces, the rendered path contains no
remaining placeholder syntax. -/
theorem extract_template_render (req : Request) (v : Str)
    (ht : req.path_template = defaultTemplate)
    (hb : braceFree req.experiment = true ∧ braceFree req.run = true ∧
          braceFree v = true ∧ braceFree req.institution = true ∧
          braceFree req.model = true ∧ braceFree req.estimate = true ∧
          braceFree req.version = true) :
    ∃ rendered : Str,
      renderPath req v = .ok rendered ∧
      rendered =
        "/nersc/s/stoned/C20C/".toList ++ (req.institution ++ ('/' :: (req.model ++
          ('/' :: (req.experiment ++ ('/' :: (req.estimate ++ ('/' :: (req.version ++
          ("/3hr/atmos/".toList ++ (v ++ ('/' :: (req.run ++ ('/' :: (v ++
          ("_A3hr_".toList ++ (req.model ++ ('_' :: (req.experiment ++ ('_' ::
          (req.estimate ++ ('_' :: (req.version ++ ('_' :: (req.run ++
          (".tar".toList)))))))))))))))))))))))))) ∧
      braceFree rendered = true := by
  obtain ⟨h1, h2, h3, h4, h5, h6, h7⟩ := hb
  have hgood : ∀ ch ∈ defaultChunks, chunkGood (fieldsOf req v) ch = true := by
    intro ch hch
    exact List.all_eq_true.mp (by rfl) ch hch
  have hmain : renderPath req v = .ok (chunksRender (fieldsOf req v) defaultChunks) := by
    unfold renderPath
    rw [ht, defaultTemplate_chunks]
    exact pyFormat_chunks (fieldsOf req v) defaultChunks hgood
  have hexp : chunksRender (fieldsOf req v) defaultChunks =
      "/nersc/s/stoned/C20C/".toList ++ (req.institution ++ ('/' :: (req.model ++
            ('/' :: (req.experiment ++ ('/' :: (req.estimate ++ ('/' :: (req.version ++
            ("/3hr/atmos/".toList ++ (v ++ ('/' :: (req.run ++ ('/' :: (v ++
            ("_A3hr_".toList ++ (req.model ++ ('_' :: (req.experiment ++ ('_' ::
            (req.estimate ++ ('_' :: (req.version ++ ('_' :: (req.run ++
            (".tar".toList)))))))))))))))))))))))))) := by
    rfl
  refine ⟨chunksRender (fieldsOf req v) defaultChunks, hmain, hexp, ?_⟩
  rw [hexp]
  simp only [braceFree_append, braceFree_cons, Bool.and_eq_true]
  repeat' apply And.intro
  all_goals first | assumption | decide

end C20C

namespace C20C

/-! ## Concrete witnesses -/

/-- Environment whose existence check always fails. -/
def envW1 : Env := ⟨fun _ => false, fun _ => true, fun _ _ => false⟩

/-- One-variable request with a placeholder-free template, verification on. -/
def reqW1 : Request :=
  { experiment := "e".toList, run := "r".toList,
    variable_list := some ["a".toList], institution := "I".toList,
    model := "m".toList, estimate := "s".toList, version := "1".toList,
    path_template := "t".toList, verbose := true,
    output_directory := some "d".toList, verify_first := true,
    clobber := true, htar_threads := 1 }

theorem extract_verify_gate_witness :
    (runExtract envW1 reqW1 "/w".toList).1 =
      .failed (.verificationError "t".toList) ∧
    htarCount (runExtract envW1 reqW1 "/w".toList).2.1 = 0 :=
  extract_verify_gate envW1 reqW1 "/w".toList [] [] "a".toList rfl rfl
    ⟨"t".toList, rfl⟩ (fun u hu => absurd hu (List.not_mem_nil u)) rfl

/-- Environment whose clobber query always reports a non-empty directory. -/
def envW2 : Env := ⟨fun _ => true, fun _ => true, fun _ _ => true⟩

/-- One-variable request with overwriting disallowed. -/
def reqW2 : Request :=
  { experiment := "e".toList, run := "r".toList,
    variable_list := some ["a".toList], institution := "I".toList,
    model := "m".toList, estimate := "s".toList, version := "1".toList,
    path_template := "t".toList, verbose := true,
    output_directory := some "d".toList, verify_first := false,
    clobber := false, htar_threads := 1 }

theorem extract_clobber_skip_witness :
    (runExtract envW2 reqW2 "/w".toList).1 = .clobberSkipped "d".toList ∧
    htarCount (runExtract envW2 reqW2 "/w".toList).2.1 = 0 :=
  extract_clobber_skip envW2 reqW2 "/w".toList [] [] "a".toList rfl rfl
    ⟨"t".toList, rfl⟩ (fun h => nomatch h)
    (fun u hu => absurd hu (List.not_mem_nil u)) (fun _ => rfl)

/-- Request whose template is itself the archive path of the derivation
example, with institution `LBNL` and no explicit output directory. -/
def reqW3 : Request :=
  { experiment := "e".toList, run := "r".toList,
    variable_list := some ["x".toList], institution := "LBNL".toList,
    model := "m".toList, estimate := "s".toList, version := "1".toList,
    path_template := "/a/b/LBNL/CAM5/hus_A3hr.tar".toList, verbose := true,
    output_directory := none, verify_first := false,
    clobber := true, htar_threads := 1 }

theorem extract_dest_derivation_witness :
    outDirOf reqW3 "/a/b/LBNL/CAM5/hus_A3hr.tar".toList = "LBNL/CAM5".toList :=
  extract_dest_derivation reqW3 "x".toList "/a/b/LBNL/CAM5/hus_A3hr.tar".toList
    5 "LBNL/CAM".toList "hus_A3hr.tar".toList '5' rfl rfl (by decide) (by decide)
    (by decide) (by decide)

/-- Request with the source's default parameter values and the default
template. -/
def reqW4 : Request :=
  { experiment := "All-Hist".toList, run := "run001".toList,
    variable_list := none, institution := "LBNL".toList,
    model := "CAM5-1-1degree".toList, estimate := "est1".toList,
    version := "v2-0".toList, path_template := defaultTemplate,
    verbose := true, output_directory := none, verify_first := true,
    clobber := true, htar_threads := 15 }

theorem extract_template_render_witness :
    ∃ rendered : Str,
      renderPath reqW4 "hus".toList = .ok rendered ∧
      rendered = "/nersc/s/stoned/C20C/LBNL/CAM5-1-1degree/All-Hist/est1/v2-0/3hr/atmos/hus/run001/hus_A3hr_CAM5-1-1degree_All-Hist_est1_v2-0_run001.tar".toList ∧
      braceFree rendered = true :=
  extract_template_render reqW4 "hus".toList rfl
    ⟨rfl, rfl, rfl, rfl, rfl, rfl, rfl⟩

/-- Environment in which extracting the path `b` fails and everything else
succeeds. -/
def envW5 : Env :=
  ⟨fun _ => true, fun p => !decide (p = "b".toList), fun _ _ => false⟩

/-- Three-variable request whose template renders each variable to itself. -/
def reqW5 : Request :=
  { experiment := "e".toList, run := "r".toList,
    variable_list := some ["a".toList, "b".toList, "c".toList],
    institution := "I".toList, model := "m".toList, estimate := "s".toList,
    version := "1".toList, path_template := "{variable}".toList,
    verbose := true, output_directory := some "o".toList,
    verify_first := false, clobber := true, htar_threads := 1 }

theorem extract_sequential_abort_witness :
    (runExtract envW5 reqW5 "/w".toList).1 =
      .failed (.extractionError "b".toList "b".toList) ∧
    htarCount (runExtract envW5 reqW5 "/w".toList).2.1 = 2 :=
  extract_sequential_abort envW5 reqW5 "/w".toList ["a".toList] ["c".toList]
    "b".toList rfl ⟨"b".toList, rfl⟩ (fun h => nomatch h)
    (by intro u hu
        rw [List.mem_singleton] at hu
        subst hu
        exact ⟨(fun hcl => nomatch hcl), rfl⟩)
    (fun hcl => nomatch hcl) rfl

/-- Environment in which every external call succeeds. -/
def envW6 : Env := ⟨fun _ => true, fun _ => true, fun _ _ => false⟩

/-- One-variable request that completes normally. -/
def reqW6 : Request :=
  { experiment := "e".toList, run := "r".toList,
    variable_list := some ["a".toList], institution := "I".toList,
    model := "m".toList, estimate := "s".toList, version := "1".toList,
    path_template := "t".toList, verbose := true,
    output_directory := some "o".toList, verify_first := true,
    clobber := true, htar_threads := 1 }

theorem extract_cwd_restored_witness :
    (runExtract envW6 reqW6 "/w".toList).2.2 = "/w".toList :=
  extract_cwd_restored envW6 reqW6 "/w".toList rfl

/-- Request whose template references an unsupplied field `bogus`. -/
def reqW7 : Request :=
  { experiment := "e".toList, run := "r".toList,
    variable_list := some ["a".toList], institution := "I".toList,
    model := "m".toList, estimate := "s".toList, version := "1".toList,
    path_template := "{bogus}".toList, verbose := true,
    output_directory := none, verify_first := true,
    clobber := true, htar_threads := 1 }

theorem extract_template_error_first_witness :
    (runExtract envW6 reqW7 "/w".toList).1 =
      .failed (.templateError (.missingField "bogus".toList)) ∧
    (runExtract envW6 reqW7 "/w".toList).2.1 = [] :=
  extract_template_error_first envW6 reqW7 "/w".toList
    (.missingField "bogus".toList) (fun h => nomatch h) ⟨"a".toList, rfl⟩

/-- Environment in which extracting the path `y` fails. -/
def envW9 : Env :=
  ⟨fun _ => true, fun p => !decide (p = "y".toList), fun _ _ => false⟩

/-- Two-variable request whose template renders each variable to itself;
the second variable's extraction fails. -/
def reqW9 : Request :=
  { experiment := "e".toList, run := "r".toList,
    variable_list := some ["x".toList, "y".toList],
    institution := "I".toList, model := "m".toList, estimate := "s".toList,
    version := "1".toList, path_template := "{variable}".toList,
    verbose := true, output_directory := some "dd".toList,
    verify_first := false, clobber := true, htar_threads := 1 }

theorem extract_cwd_unrestored_on_failure_witness :
    (runExtract envW9 reqW9 "/base".toList).1 =
      .failed (.extractionError "y".toList "y".toList) ∧
    (runExtract envW9 reqW9 "/base".toList).2.2 = "/base/dd".toList :=
  extract_cwd_unrestored_on_failure envW9 reqW9 "/base".toList ["x".toList] []
    "y".toList rfl ⟨"y".toList, rfl⟩ (fun h => nomatch h)
    (by intro u hu
        rw [List.mem_singleton] at hu
        subst hu
        exact ⟨(fun hcl => nomatch hcl), rfl⟩)
    (fun hcl => nomatch hcl) rfl

/-- Request whose institution label `Z` occurs nowhere in its rendered
path `abc`, with no explicit output directory. -/
def reqW10 : Request :=
  { experiment := "e".toList, run := "r".toList,
    variable_list := some ["q".toList], institution := "Z".toList,
    model := "m".toList, estimate := "s".toList, version := "1".toList,
    path_template := "abc".toList, verbose := true,
    output_directory := none, verify_first := false,
    clobber := true, htar_threads := 1 }

theorem extract_missing_institution_dest_witness :
    pyFind "abc".toList "Z".toList = -1 ∧ outDirOf reqW10 "abc".toList = [] :=
  extract_missing_institution_dest reqW10 "q".toList "abc".toList rfl rfl
    (by decide) (by decide) (by decide)

end C20C
